import Mathlib

/-!
Shallow embedding of the VoiceBI client core (src/App.tsx): the base64
transport codec, the PCM16 codec, the output scheduler, the session
lifecycle handlers and the response extractor, with proofs of the
specification claims.
-/

/-- JSON values as produced by the platform builtin JSON.parse that
processResponse calls.  Numbers are modelled as exact rationals. -/
inductive JValue : Type
  | jnull : JValue
  | jbool : Bool → JValue
  | jnum : ℚ → JValue
  | jstr : String → JValue
  | jarr : List JValue → JValue
  | jobj : List (String × JValue) → JValue

/-- JSON insignificant whitespace characters. -/
def isJsonWs (c : Char) : Bool :=
  c = ' ' || c = '\t' || c = '\n' || c = '\r'

/-- Drop leading JSON whitespace. -/
def skipWs : List Char → List Char
  | [] => []
  | c :: rest => if isJsonWs c then skipWs rest else c :: rest

/-- Value of a decimal digit character. -/
def digitVal (c : Char) : Option ℕ :=
  if '0' ≤ c && c ≤ '9' then some (c.toNat - 48) else none

/-- Take a maximal run of decimal digits from the front of the input. -/
def takeDigits : List Char → List ℕ × List Char
  | [] => ([], [])
  | c :: rest =>
    match digitVal c with
    | some d => let p := takeDigits rest; (d :: p.1, p.2)
    | none => ([], c :: rest)

/-- Natural number denoted by a digit list, most significant first. -/
def digitsToNat (ds : List ℕ) : ℕ := ds.foldl (fun a d => a * 10 + d) 0

/-- Value of a hexadecimal digit character. -/
def hexVal (c : Char) : Option ℕ :=
  if '0' ≤ c && c ≤ '9' then some (c.toNat - 48)
  else if 'a' ≤ c && c ≤ 'f' then some (c.toNat - 87)
  else if 'A' ≤ c && c ≤ 'F' then some (c.toNat - 55)
  else none

/-- Prepend a decoded character to the result of a string-body parse. -/
def cons1 (c : Char) (r : Option (List Char × List Char)) :
    Option (List Char × List Char) :=
  r.map fun p => (c :: p.1, p.2)

/-- Parse the body of a JSON string after its opening quote, handling the
JSON escape sequences; raw control characters are rejected as JSON.parse
rejects them.  Returns the decoded characters and the remaining input. -/
def parseStringBody : List Char → Option (List Char × List Char)
  | '\"' :: rest => some ([], rest)
  | '\\' :: '\"' :: rest => cons1 '\"' (parseStringBody rest)
  | '\\' :: '\\' :: rest => cons1 '\\' (parseStringBody rest)
  | '\\' :: '/' :: rest => cons1 '/' (parseStringBody rest)
  | '\\' :: 'b' :: rest => cons1 (Char.ofNat 8) (parseStringBody rest)
  | '\\' :: 'f' :: rest => cons1 (Char.ofNat 12) (parseStringBody rest)
  | '\\' :: 'n' :: rest => cons1 (Char.ofNat 10) (parseStringBody rest)
  | '\\' :: 'r' :: rest => cons1 (Char.ofNat 13) (parseStringBody rest)
  | '\\' :: 't' :: rest => cons1 (Char.ofNat 9) (parseStringBody rest)
  | '\\' :: 'u' :: a :: b :: c :: d :: rest =>
    match hexVal a, hexVal b, hexVal c, hexVal d with
    | some ha, some hb, some hc, some hd =>
      cons1 (Char.ofNat (((ha * 16 + hb) * 16 + hc) * 16 + hd)) (parseStringBody rest)
    | _, _, _, _ => none
  | '\\' :: _ => none
  | c :: rest => if c.toNat < 32 then none else cons1 c (parseStringBody rest)
  | [] => none

/-- Parse an optional JSON fraction part. -/
def parseFrac : List Char → Option (ℚ × List Char)
  | '.' :: r =>
    match takeDigits r with
    | ([], _) => none
    | (ds, rest) => some ((digitsToNat ds : ℚ) / (10 : ℚ) ^ ds.length, rest)
  | cs => some (0, cs)

/-- Parse the digits of a JSON exponent with the given sign. -/
def parseExpDigits (sgn : ℤ) (r : List Char) : Option (ℤ × List Char) :=
  match takeDigits r with
  | ([], _) => none
  | (ds, rest) => some (sgn * (digitsToNat ds : ℤ), rest)

/-- Parse a JSON exponent body after the letter e, with optional sign. -/
def parseExpAux : List Char → Option (ℤ × List Char)
  | '+' :: r => parseExpDigits 1 r
  | '-' :: r => parseExpDigits (-1) r
  | r => parseExpDigits 1 r

/-- Parse an optional JSON exponent part. -/
def parseExpPart : List Char → Option (ℤ × List Char)
  | 'e' :: r => parseExpAux r
  | 'E' :: r => parseExpAux r
  | cs => some (0, cs)

/-- Parse an unsigned JSON number: integer part with no leading zero,
optional fraction, optional exponent. -/
def parseNumBody (cs : List Char) : Option (ℚ × List Char) :=
  match takeDigits cs with
  | ([], _) => none
  | (ds, cs2) =>
    if 1 < ds.length && ds.headD 1 = 0 then none
    else
      match parseFrac cs2 with
      | none => none
      | some (f, cs3) =>
        match parseExpPart cs3 with
        | none => none
        | some (e, cs4) => some (((digitsToNat ds : ℚ) + f) * (10 : ℚ) ^ e, cs4)

/-- Parse a JSON number with optional leading minus sign. -/
def parseNumber : List Char → Option (ℚ × List Char)
  | '-' :: r => (parseNumBody r).map fun p => (-p.1, p.2)
  | cs => parseNumBody cs

mutual

/-- Fuelled recursive-descent JSON value grammar, modelling the platform
builtin JSON.parse used by processResponse.  Each descent consumes at
least one input character, so fuel exceeding the input length suffices. -/
def parseValue : ℕ → List Char → Option (JValue × List Char)
  | 0, _ => none
  | f + 1, cs =>
    match skipWs cs with
    | 'n' :: 'u' :: 'l' :: 'l' :: r => some (JValue.jnull, r)
    | 't' :: 'r' :: 'u' :: 'e' :: r => some (JValue.jbool true, r)
    | 'f' :: 'a' :: 'l' :: 's' :: 'e' :: r => some (JValue.jbool false, r)
    | '\"' :: r => (parseStringBody r).map fun p => (JValue.jstr (String.mk p.1), p.2)
    | '\x7b' :: r => (parseMembers f (skipWs r)).map fun p => (JValue.jobj p.1, p.2)
    | '[' :: r => (parseElements f (skipWs r)).map fun p => (JValue.jarr p.1, p.2)
    | cs2 => (parseNumber cs2).map fun p => (JValue.jnum p.1, p.2)

/-- Array elements after the opening bracket (leading whitespace gone). -/
def parseElements : ℕ → List Char → Option (List JValue × List Char)
  | 0, _ => none
  | f + 1, cs =>
    match cs with
    | ']' :: r => some ([], r)
    | _ =>
      match parseValue f cs with
      | none => none
      | some (v, rest) =>
        match parseElementsTail f (skipWs rest) with
        | none => none
        | some (vs, rest2) => some (v :: vs, rest2)

/-- Remaining array elements after a parsed element: a close bracket or a
comma followed by another element; trailing commas are rejected. -/
def parseElementsTail : ℕ → List Char → Option (List JValue × List Char)
  | 0, _ => none
  | f + 1, cs =>
    match cs with
    | ']' :: r => some ([], r)
    | ',' :: r =>
      match parseValue f r with
      | none => none
      | some (v, rest) =>
        match parseElementsTail f (skipWs rest) with
        | none => none
        | some (vs, rest2) => some (v :: vs, rest2)
    | _ => none

/-- Object members after the opening brace (leading whitespace gone). -/
def parseMembers : ℕ → List Char → Option (List (String × JValue) × List Char)
  | 0, _ => none
  | f + 1, cs =>
    match cs with
    | '\x7d' :: r => some ([], r)
    | '\"' :: r =>
      match parseStringBody r with
      | none => none
      | some (k, rest) =>
        match skipWs rest with
        | ':' :: r2 =>
          match parseValue f r2 with
          | none => none
          | some (v, rest2) =>
            match parseMembersTail f (skipWs rest2) with
            | none => none
            | some (ms, rest3) => some ((String.mk k, v) :: ms, rest3)
        | _ => none
    | _ => none

/-- Remaining object members after a parsed member: a close brace or a
comma followed by another member; trailing commas are rejected. -/
def parseMembersTail : ℕ → List Char → Option (List (String × JValue) × List Char)
  | 0, _ => none
  | f + 1, cs =>
    match cs with
    | '\x7d' :: r => some ([], r)
    | ',' :: r =>
      match skipWs r with
      | '\"' :: r1 =>
        match parseStringBody r1 with
        | none => none
        | some (k, rest) =>
          match skipWs rest with
          | ':' :: r2 =>
            match parseValue f r2 with
            | none => none
            | some (v, rest2) =>
              match parseMembersTail f (skipWs rest2) with
              | none => none
              | some (ms, rest3) => some ((String.mk k, v) :: ms, rest3)
          | _ => none
      | _ => none
    | _ => none

end

/-- Model of the platform builtin JSON.parse: parse one value and require
that only whitespace remains. -/
def jsonParse (s : String) : Option JValue :=
  match parseValue (s.length + 2) s.toList with
  | none => none
  | some (v, rest) => if skipWs rest = [] then some v else none

/-- Property lookup on a parsed JSON object, as JS property access on the
result of JSON.parse: with duplicate keys the later member wins, and a
missing key yields undefined, modelled as none. -/
def jlookup (fields : List (String × JValue)) (name : String) : Option JValue :=
  fields.foldl (fun acc kv => if kv.1 = name then some kv.2 else acc) none

/-- JS property access on an arbitrary parsed value. -/
def jfield (v : JValue) (name : String) : Option JValue :=
  match v with
  | JValue.jobj fs => jlookup fs name
  | _ => none

/-- Model of the regex match text.match of the pattern brace, any
characters, brace (App.tsx line 77): leftmost-greedy, so the match runs
from the first opening brace to the last closing brace at or after it,
and fails when no such pair exists. -/
def jsonMatch (s : String) : Option String :=
  match s.toList.findIdx? (fun c => c = '\x7b'),
        s.toList.reverse.findIdx? (fun c => c = '\x7d') with
  | some i, some jr =>
    if i + jr + 1 ≤ s.toList.length then
      some (String.mk ((s.toList.drop i).take (s.toList.length - jr - i)))
    else none
  | _, _ => none

/-- A conversation log entry (interface Message of src/types.ts); content
holds the JS value actually stored, which for the parse branch of
processResponse is the insight property and may be undefined (none). -/
structure Message where
  role : String
  content : Option JValue

/-- A playback source scheduled on the output audio context, with the
start time passed to source.start and the decoded buffer duration. -/
structure ScheduledSource where
  startTime : ℚ
  duration : ℚ
  deriving DecidableEq

/-- The mutable state of the App component that the specified core
touches: the React state hooks and the refs of src/App.tsx lines 59-72.
The stopped list records sources on which stop was called, so that
teardown claims can speak about formerly active sources. -/
structure AppState where
  isRecording : Bool
  status : String
  isLoading : Bool
  lastResponse : Option JValue
  history : List Message
  nextStartTime : ℚ
  sources : List ScheduledSource
  stopped : List ScheduledSource
  session : Bool
  scriptProcessor : Bool
  inputCtxOpen : Bool
  outputCtxOpen : Bool

/-- The initial hook and ref values of src/App.tsx lines 59-72. -/
def initialState : AppState where
  isRecording := false
  status := "Ready to analyze"
  isLoading := false
  lastResponse := none
  history := []
  nextStartTime := 0
  sources := []
  stopped := []
  session := false
  scriptProcessor := false
  inputCtxOpen := false
  outputCtxOpen := false

/-- The response extractor (processResponse, App.tsx lines 74-97): find a
brace-delimited span; if present, JSON.parse it, store the parsed value
as lastResponse and prepend an assistant message whose content is the
insight property; on parse failure the exception is caught and logged and
nothing else happens; with no span, prepend an assistant message holding
the verbatim text. -/
def processResponse (text : String) (st : AppState) : AppState :=
  match jsonMatch text with
  | some s =>
    match jsonParse s with
    | some parsed =>
      { st with
        lastResponse := some parsed
        history := { role := "assistant", content := jfield parsed "insight" } :: st.history
        status := "Analysis complete" }
    | none => st
  | none =>
    { st with
      history := { role := "assistant", content := some (JValue.jstr text) } :: st.history }

/-- Outcome of the awaited acquisitions inside startSession: the transport
open (ai.live.connect, awaited at line 178) can reject, else microphone
acquisition (getUserMedia, line 181) can reject, else both succeed. -/
inductive StartOutcome : Type
  | connectFail : StartOutcome
  | micFail : StartOutcome
  | success : StartOutcome

/-- startSession (App.tsx lines 99-210).  Returns the new state paired
with a flag recording whether a transport connection attempt was
initiated (ai.live.connect called).  The guard returns immediately when
the session ref is set; otherwise status and loading are set, the
transport is opened and awaited, then the microphone is acquired and the
audio graph built; any rejection lands in the catch block (lines
205-209), which only sets a status string and clears the loading flag. -/
def startSession (o : StartOutcome) (st : AppState) : AppState × Bool :=
  if st.session then (st, false)
  else
    let st1 := { st with status := "Connecting to AI...", isLoading := true }
    match o with
    | StartOutcome.connectFail =>
      ({ st1 with status := "Microphone access denied", isLoading := false }, true)
    | StartOutcome.micFail =>
      ({ st1 with session := true,
                  status := "Microphone access denied", isLoading := false }, true)
    | StartOutcome.success =>
      ({ st1 with session := true, inputCtxOpen := true, outputCtxOpen := true,
                  scriptProcessor := true }, true)

/-- stopSession (App.tsx lines 212-229): clear the recording flag, set the
status, disconnect the script processor, close both audio contexts, call
stop on every active source and clear the set, close and null the session.
The cursor ref nextStartTimeRef is not touched. -/
def stopSession (st : AppState) : AppState :=
  { st with
    isRecording := false
    status := "Analysis complete"
    scriptProcessor := false
    inputCtxOpen := false
    outputCtxOpen := false
    stopped := st.sources ++ st.stopped
    sources := []
    session := false }

/-- Duration in seconds of the decoded buffer for an inbound audio payload
of the given byte length: decodeAudioData (App.tsx lines 40-56) forms an
Int16Array over the bytes (two bytes per sample), divides the sample
count by the channel count (one channel in the onmessage call) to get the
frame count, and the AudioBuffer duration is frameCount over the 24000 Hz
sample rate. -/
def bufferDuration (data : List ℕ) : ℚ :=
  ((data.length / 2 : ℕ) : ℚ) / 24000

/-- The audio branch of the onmessage callback (App.tsx lines 117-131) for
one inbound frame: clamp the cursor to the current output clock, schedule
the decoded buffer at the clamped cursor, advance the cursor by the
buffer duration and register the source. -/
def onmessageAudio (now : ℚ) (data : List ℕ) (st : AppState) : AppState :=
  let start := max st.nextStartTime now
  let dur := bufferDuration data
  { st with
    nextStartTime := start + dur
    sources := { startTime := start, duration := dur } :: st.sources }

/-- Process a list of inbound audio frames in arrival order; each event
carries the output clock reading at processing time and the frame bytes. -/
def runFrames (st : AppState) : List (ℚ × List ℕ) → AppState
  | [] => st
  | (now, data) :: rest => runFrames (onmessageAudio now data st) rest

/-- The chronological list of sources scheduled by onmessageAudio starting
from the given cursor value, computed by the same clamp-and-advance rule. -/
def scheduledFrames (cursor : ℚ) : List (ℚ × List ℕ) → List ScheduledSource
  | [] => []
  | (now, data) :: rest =>
    let start := max cursor now
    let dur := bufferDuration data
    { startTime := start, duration := dur } :: scheduledFrames (start + dur) rest

/-- The ECMAScript ToInt16 conversion applied when an integer is stored
into an Int16Array: reduce modulo 2 to the 16 into the signed range. -/
def toInt16 (n : ℤ) : ℤ := (n + 32768) % 65536 - 32768

/-- Truncation toward zero, the integer conversion ECMAScript applies to
a number before ToInt16 wraps it. -/
def truncQ (q : ℚ) : ℤ := if 0 ≤ q then ⌊q⌋ else ⌈q⌉

/-- One sample of the capture path (onaudioprocess, App.tsx line 193):
the float sample is scaled by 32768 and stored into an Int16Array, which
truncates toward zero and wraps modulo 2 to the 16. -/
def pcm16Sample (x : ℚ) : ℤ := toInt16 (truncQ (x * 32768))

/-- The two little-endian bytes of a stored 16-bit sample, as exposed by
viewing the Int16Array buffer as a Uint8Array (App.tsx line 196). -/
def int16Bytes (v : ℤ) : List ℕ :=
  [(v % 65536).toNat % 256, (v % 65536).toNat / 256]

/-- The capture-path codec toPCM16: scale, truncate and wrap every sample,
then lay the samples out as little-endian byte pairs. -/
def toPCM16 (xs : List ℚ) : List ℕ :=
  (xs.map fun x => int16Bytes (pcm16Sample x)).flatten

/-- Reinterpret a byte list as 16-bit little-endian signed integers, as
the Int16Array view in decodeAudioData (App.tsx line 46) does. -/
def bytesToInt16s : List ℕ → List ℤ
  | [] => []
  | [_] => []
  | lo :: hi :: rest => toInt16 (lo + 256 * hi) :: bytesToInt16s rest

/-- decodeAudioData (App.tsx lines 40-56): view the bytes as 16-bit
samples, de-interleave per channel and divide each sample by 32768 to
restore the float range.  Returns the per-channel sample lists. -/
def decodeAudioData (data : List ℕ) (numChannels : ℕ) : List (List ℚ) :=
  let dataInt16 := bytesToInt16s data
  let frameCount := dataInt16.length / numChannels
  (List.range numChannels).map fun ch =>
    (List.range frameCount).map fun i => ((dataInt16.getD (i * numChannels + ch) 0 : ℤ) : ℚ) / 32768

/-- The playback-path codec fromPCM16 at the configuration the session
uses (mono): the single channel decodeAudioData produces. -/
def fromPCM16 (data : List ℕ) : List ℚ :=
  (decodeAudioData data 1).getD 0 []

/-- The base64 alphabet used by the platform btoa and atob builtins. -/
def b64Alphabet : List Char :=
  "ABCDEFGHIJKLMNOPQRSTUVWXYZabcdefghijklmnopqrstuvwxyz0123456789+/".toList

/-- Character for a six-bit group. -/
def sextetChar (n : ℕ) : Char := b64Alphabet.getD n 'A'

/-- Index of a base64 character in the alphabet. -/
def charSextet (c : Char) : ℕ := b64Alphabet.findIdx fun x => x = c

/-- Model of the platform btoa builtin on a byte sequence, which is what
encode (App.tsx lines 31-38) passes it: String.fromCharCode maps each
byte to the latin1 code unit with the same value, so btoa sees exactly
the byte values.  Standard RFC 4648 base64 with padding. -/
def btoa : List ℕ → List Char
  | [] => []
  | [a] => [sextetChar (a / 4), sextetChar (a % 4 * 16), '=', '=']
  | [a, b] => [sextetChar (a / 4), sextetChar (a % 4 * 16 + b / 16),
               sextetChar (b % 16 * 4), '=']
  | a :: b :: c :: rest =>
    sextetChar (a / 4) :: sextetChar (a % 4 * 16 + b / 16) ::
    sextetChar (b % 16 * 4 + c / 64) :: sextetChar (c % 64) :: btoa rest

/-- Model of the platform atob builtin on well-formed base64, returning
the byte values of the binary string; decode (App.tsx lines 21-29) then
reads those bytes back with charCodeAt. -/
def atob : List Char → List ℕ
  | w :: x :: y :: z :: rest =>
    if y = '=' then [charSextet w * 4 + charSextet x / 16]
    else if z = '=' then
      [charSextet w * 4 + charSextet x / 16,
       charSextet x % 16 * 16 + charSextet y / 4]
    else
      (charSextet w * 4 + charSextet x / 16) ::
      (charSextet x % 16 * 16 + charSextet y / 4) ::
      (charSextet y % 4 * 64 + charSextet z) :: atob rest
  | _ => []

/-- encode (App.tsx lines 31-38): transport text for a byte buffer. -/
def encodeTransport (bytes : List ℕ) : List Char := btoa bytes

/-- decode (App.tsx lines 21-29): byte buffer for transport text. -/
def decodeTransport (text : List Char) : List ℕ := atob text

theorem charSextet_sextetChar : ∀ n < 64, charSextet (sextetChar n) = n := by decide

theorem sextetChar_ne_pad : ∀ n < 64, sextetChar n ≠ '=' := by decide

theorem atob_btoa : ∀ bs : List ℕ, (∀ x ∈ bs, x < 256) → atob (btoa bs) = bs
  | [], _ => rfl
  | [a], h => by
    have ha : a < 256 := h a (by simp)
    have h1 := charSextet_sextetChar (a / 4) (by omega)
    have h2 := charSextet_sextetChar (a % 4 * 16) (by omega)
    simp only [btoa, atob, if_pos, h1, h2, List.cons.injEq, and_true]
    omega
  | [a, b], h => by
    have ha : a < 256 := h a (by simp)
    have hb : b < 256 := h b (by simp)
    have h1 := charSextet_sextetChar (a / 4) (by omega)
    have h2 := charSextet_sextetChar (a % 4 * 16 + b / 16) (by omega)
    have h3 := charSextet_sextetChar (b % 16 * 4) (by omega)
    have hne := sextetChar_ne_pad (b % 16 * 4) (by omega)
    simp only [btoa, atob, hne, if_false, if_pos, h1, h2, h3, List.cons.injEq, and_true]
    constructor <;> omega
  | a :: b :: c :: rest, h => by
    have ha : a < 256 := h a (by simp)
    have hb : b < 256 := h b (by simp)
    have hc : c < 256 := h c (by simp)
    have h1 := charSextet_sextetChar (a / 4) (by omega)
    have h2 := charSextet_sextetChar (a % 4 * 16 + b / 16) (by omega)
    have h3 := charSextet_sextetChar (b % 16 * 4 + c / 64) (by omega)
    have h4 := charSextet_sextetChar (c % 64) (by omega)
    have hne3 := sextetChar_ne_pad (b % 16 * 4 + c / 64) (by omega)
    have hne4 := sextetChar_ne_pad (c % 64) (by omega)
    have ih := atob_btoa rest (fun x hx => h x (by simp [hx]))
    simp only [btoa, atob, hne3, hne4, if_false, h1, h2, h3, h4, ih, List.cons.injEq,
      and_true]
    refine ⟨by omega, by omega, by omega⟩

/-- Claim C7: the transport text encoding is byte-preserving: for every
byte buffer b, decodeTransport (encodeTransport b) = b. -/
theorem c7_transport_roundtrip (bs : List ℕ) (h : ∀ x ∈ bs, x < 256) :
    decodeTransport (encodeTransport bs) = bs :=
  atob_btoa bs h

/-- Witness for C7 at the concrete buffer [10, 77, 200, 255]. -/
theorem c7_transport_roundtrip_witness :
    (∀ x ∈ [10, 77, 200, 255], x < 256) ∧
      decodeTransport (encodeTransport [10, 77, 200, 255]) = [10, 77, 200, 255] :=
  ⟨by decide, c7_transport_roundtrip [10, 77, 200, 255] (by decide)⟩

theorem toInt16_range (n : ℤ) : -32768 ≤ toInt16 n ∧ toInt16 n < 32768 := by
  unfold toInt16; omega

theorem toInt16_eq_self (n : ℤ) (h1 : -32768 ≤ n) (h2 : n < 32768) : toInt16 n = n := by
  unfold toInt16; omega

theorem bytesToInt16s_int16Bytes (v : ℤ) (rest : List ℕ)
    (h1 : -32768 ≤ v) (h2 : v < 32768) :
    bytesToInt16s (int16Bytes v ++ rest) = v :: bytesToInt16s rest := by
  simp only [int16Bytes, List.cons_append, List.nil_append, bytesToInt16s, List.cons.injEq,
    toInt16]
  exact ⟨by omega, rfl⟩

theorem bytesToInt16s_toPCM16 (xs : List ℚ) :
    bytesToInt16s (toPCM16 xs) = xs.map pcm16Sample := by
  induction xs with
  | nil => rfl
  | cons x xs ih =>
    have h : -32768 ≤ pcm16Sample x ∧ pcm16Sample x < 32768 :=
      toInt16_range (truncQ (x * 32768))
    have hstep : toPCM16 (x :: xs) = int16Bytes (pcm16Sample x) ++ toPCM16 xs := rfl
    rw [hstep, bytesToInt16s_int16Bytes _ _ h.1 h.2, ih, List.map_cons]

theorem getD_range_map (l : List ℤ) :
    (List.range l.length).map (fun i => ((l.getD i 0 : ℤ) : ℚ) / 32768) =
      l.map fun v => ((v : ℤ) : ℚ) / 32768 := by
  induction l with
  | nil => rfl
  | cons a l ih =>
    rw [List.length_cons, List.range_succ_eq_map, List.map_cons, List.map_map]
    simp only [Function.comp_def, List.getD_cons_zero, List.getD_cons_succ]
    rw [ih, List.map_cons]

theorem fromPCM16_eq (data : List ℕ) :
    fromPCM16 data = (bytesToInt16s data).map fun v => ((v : ℤ) : ℚ) / 32768 := by
  have hr1 : List.range 1 = [0] := rfl
  show ((decodeAudioData data 1).getD 0 []) = _
  simp only [decodeAudioData, hr1, List.map_cons, List.map_nil,
    List.getD_cons_zero, Nat.div_one, mul_one, add_zero]
  exact getD_range_map _

theorem pcm16Sample_close (x : ℚ) (h1 : -1 ≤ x) (h2 : x < 1) :
    |((pcm16Sample x : ℤ) : ℚ) / 32768 - x| ≤ 1 / 32768 := by
  have hx1 : (-32768 : ℚ) ≤ x * 32768 := by linarith
  have hx2 : x * 32768 < 32768 := by linarith
  by_cases h0 : (0 : ℚ) ≤ x * 32768
  · have hfl : truncQ (x * 32768) = ⌊x * 32768⌋ := if_pos h0
    have hlow : (0 : ℤ) ≤ ⌊x * 32768⌋ := Int.floor_nonneg.mpr h0
    have hup : ⌊x * 32768⌋ < 32768 := Int.floor_lt.mpr (by exact_mod_cast hx2)
    have hs : pcm16Sample x = ⌊x * 32768⌋ := by
      rw [pcm16Sample, hfl, toInt16_eq_self _ (by omega) hup]
    rw [hs]
    have hb1 : ((⌊x * 32768⌋ : ℤ) : ℚ) ≤ x * 32768 := Int.floor_le _
    have hb2 : x * 32768 - 1 < ((⌊x * 32768⌋ : ℤ) : ℚ) := Int.sub_one_lt_floor _
    rw [abs_le]
    constructor <;> linarith
  · push_neg at h0
    have hfl : truncQ (x * 32768) = ⌈x * 32768⌉ := if_neg (by linarith)
    have hup : ⌈x * 32768⌉ ≤ 0 := Int.ceil_le.mpr (by exact_mod_cast h0.le)
    have hlow : (-32768 : ℤ) ≤ ⌈x * 32768⌉ := by
      have := Int.le_ceil (x * 32768)
      exact_mod_cast le_trans hx1 this
    have hs : pcm16Sample x = ⌈x * 32768⌉ := by
      rw [pcm16Sample, hfl, toInt16_eq_self _ hlow (by omega)]
    rw [hs]
    have hb1 : x * 32768 ≤ ((⌈x * 32768⌉ : ℤ) : ℚ) := Int.le_ceil _
    have hb2 : ((⌈x * 32768⌉ : ℤ) : ℚ) < x * 32768 + 1 := Int.ceil_lt_add_one _
    rw [abs_le]
    constructor <;> linarith

theorem forall2_pcm (xs : List ℚ) (h : ∀ x ∈ xs, -1 ≤ x ∧ x < 1) :
    List.Forall₂ (fun y x => |y - x| ≤ 1 / 32768)
      (xs.map fun x => ((pcm16Sample x : ℤ) : ℚ) / 32768) xs := by
  induction xs with
  | nil => simp
  | cons x xs ih =>
    rw [List.map_cons]
    exact List.Forall₂.cons
      (pcm16Sample_close x (h x (by simp)).1 (h x (by simp)).2)
      (ih fun y hy => h y (by simp [hy]))

/-- Claim C6, corrected: the claim fails at the in-range sample 1, which
the Int16Array store wraps to -32768; for samples in the half-open range
from -1 inclusive to 1 exclusive, every sample of fromPCM16 (toPCM16 x)
differs from the corresponding sample of x by at most one quantization
step of 1/32768. -/
theorem c6_pcm_roundtrip (xs : List ℚ) (h : ∀ x ∈ xs, -1 ≤ x ∧ x < 1) :
    List.Forall₂ (fun y x => |y - x| ≤ 1 / 32768) (fromPCM16 (toPCM16 xs)) xs := by
  rw [fromPCM16_eq, bytesToInt16s_toPCM16, List.map_map]
  exact forall2_pcm xs h

/-- Counterexample to claim C6 as stated: the sample 1 lies in the
claimed range, yet the round trip returns -1, an error of 2, far above
one quantization step. -/
theorem c6_counterexample :
    fromPCM16 (toPCM16 [1]) = [-1] ∧ ¬ (|(-1 : ℚ) - 1| ≤ 1 / 32768) := by
  constructor
  · have h1 : pcm16Sample 1 = -32768 := by
      rw [pcm16Sample]
      have ht : truncQ ((1 : ℚ) * 32768) = 32768 := by
        rw [show (1 : ℚ) * 32768 = 32768 from by norm_num, truncQ, if_pos (by norm_num)]
        norm_num
      rw [ht, toInt16]
      decide
    rw [fromPCM16_eq, bytesToInt16s_toPCM16]
    rw [show List.map pcm16Sample [1] = [-32768] from by rw [List.map_cons, List.map_nil, h1]]
    norm_num
  · rw [show ((-1 : ℚ) - 1) = -2 from by norm_num, abs_neg,
      abs_of_nonneg (by norm_num : (0 : ℚ) ≤ 2)]
    norm_num

/-- Witness for C6 at the concrete sample buffer with the single sample
one half. -/
theorem c6_pcm_roundtrip_witness :
    (∀ x ∈ [(1 : ℚ) / 2], -1 ≤ x ∧ x < 1) ∧
      List.Forall₂ (fun y x => |y - x| ≤ 1 / 32768)
        (fromPCM16 (toPCM16 [(1 : ℚ) / 2])) [(1 : ℚ) / 2] :=
  ⟨by norm_num, c6_pcm_roundtrip [(1 : ℚ) / 2] (by norm_num)⟩

theorem runFrames_sources (evs : List (ℚ × List ℕ)) : ∀ st : AppState,
    (runFrames st evs).sources =
      (scheduledFrames st.nextStartTime evs).reverse ++ st.sources := by
  induction evs with
  | nil => intro st; rfl
  | cons e rest ih =>
    intro st
    obtain ⟨now, data⟩ := e
    rw [runFrames, ih, scheduledFrames]
    simp only [onmessageAudio, List.reverse_cons, List.append_assoc, List.cons_append,
      List.nil_append]

theorem scheduledFrames_head (c : ℚ) (evs : List (ℚ × List ℕ)) :
    ∀ s ∈ (scheduledFrames c evs).head?, c ≤ s.startTime := by
  cases evs with
  | nil => simp [scheduledFrames]
  | cons e rest =>
    obtain ⟨now, data⟩ := e
    simp only [scheduledFrames, List.head?_cons, Option.mem_def, Option.some.injEq]
    intro s hs
    subst hs
    exact le_max_left _ _

theorem scheduledFrames_chain (evs : List (ℚ × List ℕ)) : ∀ c : ℚ,
    List.Chain' (fun a b => a.startTime + a.duration ≤ b.startTime)
      (scheduledFrames c evs) := by
  induction evs with
  | nil => intro c; simp [scheduledFrames]
  | cons e rest ih =>
    intro c
    obtain ⟨now, data⟩ := e
    rw [scheduledFrames]
    refine List.chain'_cons'.mpr ⟨?_, ih _⟩
    intro b hb
    exact scheduledFrames_head _ rest b hb

/-- Claim C1: processing inbound audio frames in arrival order, the
onmessage handler schedules each decoded buffer at the maximum of the
playback cursor and the output clock and advances the cursor by the
buffer duration (first conjunct: the handler fold produces exactly the
sources given by that clamp-and-advance rule), and consecutively
scheduled buffers never overlap: each start time is at least the
previous scheduled end time (second conjunct). -/
theorem c1_gapless_scheduling (st : AppState) (evs : List (ℚ × List ℕ)) :
    (runFrames st evs).sources =
        (scheduledFrames st.nextStartTime evs).reverse ++ st.sources ∧
      List.Chain' (fun a b => a.startTime + a.duration ≤ b.startTime)
        (scheduledFrames st.nextStartTime evs) :=
  ⟨runFrames_sources evs st, scheduledFrames_chain evs st.nextStartTime⟩

/-- Claim C9: the playback cursor is non-decreasing across every
operation of a session that touches it: any sequence of onmessage audio
events only increases it, and stopSession leaves it unchanged. -/
theorem c9_cursor_monotone (st : AppState) (evs : List (ℚ × List ℕ)) :
    st.nextStartTime ≤ (runFrames st evs).nextStartTime ∧
      (stopSession st).nextStartTime = st.nextStartTime := by
  constructor
  · induction evs generalizing st with
    | nil => exact le_refl _
    | cons e rest ih =>
      obtain ⟨now, data⟩ := e
      have h1 : st.nextStartTime ≤ (onmessageAudio now data st).nextStartTime := by
        simp only [onmessageAudio]
        have h2 : st.nextStartTime ≤ max st.nextStartTime now := le_max_left _ _
        have h3 : (0 : ℚ) ≤ bufferDuration data := by
          unfold bufferDuration
          positivity
        linarith
      exact le_trans h1 (ih _)
  · rfl

/-- The component state while a start request is connecting: the loading
flag is set and the status updated, but the session ref is still null
because it is only assigned after the transport open resolves (App.tsx
line 178). -/
def connectingState : AppState :=
  { initialState with isLoading := true, status := "Connecting to AI..." }

/-- Counterexample to claim C2 as stated: in the Connecting state the
session ref is still null, so the guard of startSession does not fire: a
second call initiates another transport connection (the returned flag is
true) and mutates the state, contradicting the claimed no-op. -/
theorem c2_counterexample :
    connectingState.session = false ∧ connectingState.isLoading = true ∧
      (startSession StartOutcome.success connectingState).2 = true ∧
      (startSession StartOutcome.success connectingState).1.session = true :=
  ⟨rfl, rfl, rfl, rfl⟩

/-- Claim C2, corrected: only while the session ref is set (the Active
state) is startSession a no-op that opens no second transport; in the
Connecting state, before the ref is assigned, a second call proceeds. -/
theorem c2_active_noop (o : StartOutcome) (st : AppState) (h : st.session = true) :
    startSession o st = (st, false) := by
  simp [startSession, h]

/-- The component state of an active session after onopen fired. -/
def activeState : AppState :=
  { initialState with
    session := true
    isRecording := true
    status := "Listening..."
    scriptProcessor := true
    inputCtxOpen := true
    outputCtxOpen := true }

/-- Witness for C2 at the concrete active state. -/
theorem c2_active_noop_witness :
    activeState.session = true ∧
      startSession StartOutcome.success activeState = (activeState, false) :=
  ⟨rfl, c2_active_noop StartOutcome.success activeState rfl⟩

/-- Counterexample to claim C3 as stated: stopSession never resets the
playback cursor; from a state with cursor 5 it returns a state with
cursor still 5, not 0. -/
theorem c3_counterexample :
    (stopSession { initialState with nextStartTime := 5 }).nextStartTime = 5 ∧
      (5 : ℚ) ≠ 0 :=
  ⟨rfl, by norm_num⟩

/-- Claim C3, corrected: stopSession is total (raises no error however
often it is called), after each call every formerly active source has
been stopped and the active set is empty, and a second call changes
nothing; but the playback cursor is not reset to zero: it keeps its
value. -/
theorem c3_idempotent_teardown (st : AppState) :
    (stopSession st).sources = [] ∧
      (∀ s ∈ st.sources, s ∈ (stopSession st).stopped) ∧
      stopSession (stopSession st) = stopSession st ∧
      (stopSession st).nextStartTime = st.nextStartTime := by
  refine ⟨rfl, ?_, rfl, rfl⟩
  intro s hs
  simp only [stopSession, List.mem_append]
  exact Or.inl hs

/-- A session state with one active scheduled source. -/
def stateWithSource : AppState :=
  { initialState with sources := [⟨1, 2⟩], nextStartTime := 3 }

/-- Witness for C3 at the concrete state with one active source. -/
theorem c3_idempotent_teardown_witness :
    (stopSession stateWithSource).sources = [] ∧
      ({ startTime := 1, duration := 2 } : ScheduledSource) ∈ (stopSession stateWithSource).stopped ∧
      stopSession (stopSession stateWithSource) = stopSession stateWithSource ∧
      (stopSession stateWithSource).nextStartTime = stateWithSource.nextStartTime :=
  ⟨(c3_idempotent_teardown stateWithSource).1,
   (c3_idempotent_teardown stateWithSource).2.1 _ (by simp [stateWithSource]),
   (c3_idempotent_teardown stateWithSource).2.2.1,
   (c3_idempotent_teardown stateWithSource).2.2.2⟩

/-- Counterexample to claim C8 as stated: when microphone acquisition
fails after the transport open already succeeded, the catch block of
startSession only sets a status string; the opened transport is not
closed, so the session handle remains set and the resource leaks. -/
theorem c8_counterexample :
    ((startSession StartOutcome.micFail initialState).1).session = true ∧
      ((startSession StartOutcome.micFail initialState).1).status = "Microphone access denied" :=
  ⟨rfl, rfl⟩

/-- Claim C8, corrected: if the microphone acquisition fails after the
transport opened, an error status is surfaced and the loading flag
cleared, but the opened transport is not released (the session handle
stays set); no other resource had been acquired yet, since the audio
contexts and processor are only created after the microphone succeeds.
Transport-open failure happens before microphone acquisition, so the
converse direction leaves nothing to leak. -/
theorem c8_mic_failure_leak (st : AppState) (h : st.session = false) :
    ((startSession StartOutcome.micFail st).1).session = true ∧
      ((startSession StartOutcome.micFail st).1).isLoading = false ∧
      ((startSession StartOutcome.micFail st).1).status = "Microphone access denied" ∧
      ((startSession StartOutcome.micFail st).1).inputCtxOpen = st.inputCtxOpen ∧
      ((startSession StartOutcome.micFail st).1).outputCtxOpen = st.outputCtxOpen ∧
      ((startSession StartOutcome.micFail st).1).scriptProcessor = st.scriptProcessor := by
  simp [startSession, h]

/-- Witness for C8 at the initial state. -/
theorem c8_mic_failure_leak_witness :
    initialState.session = false ∧
      ((startSession StartOutcome.micFail initialState).1).session = true ∧
      ((startSession StartOutcome.micFail initialState).1).isLoading = false ∧
      ((startSession StartOutcome.micFail initialState).1).status = "Microphone access denied" ∧
      ((startSession StartOutcome.micFail initialState).1).inputCtxOpen = initialState.inputCtxOpen ∧
      ((startSession StartOutcome.micFail initialState).1).outputCtxOpen = initialState.outputCtxOpen ∧
      ((startSession StartOutcome.micFail initialState).1).scriptProcessor = initialState.scriptProcessor := by
  have h := c8_mic_failure_leak initialState rfl
  exact ⟨rfl, h.1, h.2.1, h.2.2.1, h.2.2.2.1, h.2.2.2.2.1, h.2.2.2.2.2⟩

/-- The transcript of testable property 5 of the spec. -/
def transcriptExample : String :=
  "Sales are up. \x7b\"insight\":\"x\",\"title\":\"t\",\"chartType\":\"bar\",\"data\":[\x7b\"label\":\"A\",\"value\":1\x7d]\x7d"

/-- A transcript with no brace-delimited span. -/
def plainTranscript : String := "just a spoken reply"

/-- Claim C4: on the transcript with the embedded JSON payload the
extractor stores a structured result whose title is t (and whose insight
and chartType are as embedded) and prepends an assistant message with
content x; on a transcript without a brace span it prepends an assistant
message carrying the transcript verbatim and leaves the displayed result
unchanged. -/
theorem c4_extractor_cases (st : AppState) :
    (∃ v, (processResponse transcriptExample st).lastResponse = some v ∧
        jfield v "title" = some (JValue.jstr "t") ∧
        jfield v "insight" = some (JValue.jstr "x") ∧
        jfield v "chartType" = some (JValue.jstr "bar")) ∧
      (processResponse transcriptExample st).history =
        { role := "assistant", content := some (JValue.jstr "x") } :: st.history ∧
      (processResponse plainTranscript st).history =
        { role := "assistant", content := some (JValue.jstr plainTranscript) } :: st.history ∧
      (processResponse plainTranscript st).lastResponse = st.lastResponse :=
  ⟨⟨_, rfl, rfl, rfl, rfl⟩, rfl, rfl, rfl⟩

/-- A transcript whose brace-delimited span is malformed JSON. -/
def malformedTranscript : String := "\x7boops\x7d"

/-- Counterexample to claim C5 as stated: on a transcript whose brace
span is malformed JSON the extractor does not behave as in the no-span
case; the caught parse failure leaves the state entirely unchanged, so
no assistant message carrying the verbatim transcript is appended. -/
theorem c5_counterexample :
    processResponse malformedTranscript initialState = initialState ∧
      (processResponse malformedTranscript initialState).history ≠
        [{ role := "assistant", content := some (JValue.jstr malformedTranscript) }] := by
  refine ⟨rfl, ?_⟩
  rw [show (processResponse malformedTranscript initialState).history = [] from rfl]
  simp

/-- Claim C5, corrected: for every transcript whose extracted brace span
fails to parse as JSON, the extractor raises no fatal error (it is a
total function) but does not fall back to the no-span behaviour: it
appends no message and emits no structured result, leaving the state
unchanged.  (Values that do parse are never validated and are emitted
as-is.) -/
theorem c5_malformed_graceful (text s : String) (st : AppState)
    (h1 : jsonMatch text = some s) (h2 : jsonParse s = none) :
    processResponse text st = st := by
  simp [processResponse, h1, h2]

/-- A state during an active exchange, used by the C5 witness. -/
def listeningState : AppState := { initialState with status := "Listening..." }

/-- Witness for C5 at the concrete malformed transcript. -/
theorem c5_malformed_graceful_witness :
    jsonMatch malformedTranscript = some malformedTranscript ∧
      jsonParse malformedTranscript = none ∧
      processResponse malformedTranscript listeningState = listeningState :=
  ⟨rfl, rfl, c5_malformed_graceful malformedTranscript malformedTranscript listeningState rfl rfl⟩

/-- Claim C10: every invocation of the extractor leaves all previously
recorded log entries unchanged, placing any new message at the front
(the new history is some prefix prepended to the old one), and when the
text has no brace span the displayed structured result is untouched. -/
theorem c10_frame_effect (text : String) (st : AppState) :
    (∃ newEntries, (processResponse text st).history = newEntries ++ st.history) ∧
      (jsonMatch text = none → (processResponse text st).lastResponse = st.lastResponse) := by
  cases hm : jsonMatch text with
  | none =>
    refine ⟨⟨[{ role := "assistant", content := some (JValue.jstr text) }], ?_⟩, fun _ => ?_⟩
    · simp [processResponse, hm]
    · simp [processResponse, hm]
  | some s =>
    cases hp : jsonParse s with
    | none =>
      refine ⟨⟨[], ?_⟩, fun h => ?_⟩
      · simp [processResponse, hm, hp]
      · exact nomatch h
    | some parsed =>
      refine ⟨⟨[{ role := "assistant", content := jfield parsed "insight" }], ?_⟩, fun h => ?_⟩
      · simp [processResponse, hm, hp]
      · exact nomatch h

/-- Witness for C10 at a concrete brace-free text and the initial state. -/
theorem c10_frame_effect_witness :
    (∃ newEntries, (processResponse "just words" initialState).history =
        newEntries ++ initialState.history) ∧
      (processResponse "just words" initialState).lastResponse = initialState.lastResponse :=
  ⟨(c10_frame_effect "just words" initialState).1,
   (c10_frame_effect "just words" initialState).2 rfl⟩
